import Mathlib

/-!
Verification of the GraphQL client / persisted-query transport layer of
`@skyltmax/remix-base` (files `src/api/client.ts` and `src/api/persisted.ts`).

The TypeScript sources are embedded shallowly:

* machine words are `Nat` with explicit `% 2 ^ 32` where 32-bit overflow
  matters (the SHA-256 compression function);
* the platform primitive `crypto.subtle.digest("SHA-256", _)` is embedded as
  the standard FIPS 180-4 SHA-256 algorithm over the message's UTF-8 bytes
  (the hex encoding step mirrors `b.toString(16).padStart(2, "0")`);
* the `lru-cache` dependency is embedded as a most-recent-first association
  list truncated to its capacity;
* JavaScript strings carrying JSON (POST bodies, response bodies) are
  represented by the JSON value they parse to (`JVal`); a non-string body
  (e.g. `FormData`) is the constructor `BodyVal.nonString`;
* `fetch` is made explicit by returning the trace of underlying network
  calls together with the final outcome, the underlying responses being
  supplied as oracle arguments (at most two calls can occur per send).
-/

namespace RemixBase

/-! ### Generic string helpers (literal-substring search, used to state the
redaction properties) -/

/-- `leadMatches hay lit` is true when `lit` occurs at the very start of
`hay` (character lists). -/
def leadMatches : List Char → List Char → Bool
  | _, [] => true
  | [], _ :: _ => false
  | h :: hs, n :: ns => h == n && leadMatches hs ns

/-- `charsContain hay lit`: `lit` occurs contiguously somewhere in `hay`. -/
def charsContain : List Char → List Char → Bool
  | [], ns => ns.isEmpty
  | l@(_ :: t), ns => leadMatches l ns || charsContain t ns

/-- `strContainsLit hay lit`: the literal string `lit` occurs as a substring
of `hay`. -/
def strContainsLit (hay lit : String) : Bool :=
  charsContain hay.data lit.data

/-! ### SHA-256 (embedding of `crypto.subtle.digest("SHA-256", _)` plus the
hex-encoding loop of `sha256` in `persisted.ts`) -/

/-- Truncation to a 32-bit word. -/
def w32 (x : Nat) : Nat := x % 2 ^ 32

/-- 32-bit right rotation, truncated back into a word. -/
def rotr (n x : Nat) : Nat := ((x >>> n) ||| (x <<< (32 - n))) % 2 ^ 32

def bigSigma0 (x : Nat) : Nat := rotr 2 x ^^^ rotr 13 x ^^^ rotr 22 x

def bigSigma1 (x : Nat) : Nat := rotr 6 x ^^^ rotr 11 x ^^^ rotr 25 x

def smallSigma0 (x : Nat) : Nat := rotr 7 x ^^^ rotr 18 x ^^^ (x >>> 3)

def smallSigma1 (x : Nat) : Nat := rotr 17 x ^^^ rotr 19 x ^^^ (x >>> 10)

def chF (x y z : Nat) : Nat := (x &&& y) ^^^ ((x ^^^ 0xffffffff) &&& z)

def majF (x y z : Nat) : Nat := (x &&& y) ^^^ (x &&& z) ^^^ (y &&& z)

/-- The 64 SHA-256 round constants of FIPS 180-4, written in decimal. -/
def sha256K : List Nat :=
  [1116352408, 1899447441, 3049323471, 3921009573, 961987163, 1508970993,
   2453635748, 2870763221, 3624381080, 310598401, 607225278, 1426881987,
   1925078388, 2162078206, 2614888103, 3248222580, 3835390401, 4022224774,
   264347078, 604807628, 770255983, 1249150122, 1555081692, 1996064986,
   2554220882, 2821834349, 2952996808, 3210313671, 3336571891, 3584528711,
   113926993, 338241895, 666307205, 773529912, 1294757372, 1396182291,
   1695183700, 1986661051, 2177026350, 2456956037, 2730485921, 2820302411,
   3259730800, 3345764771, 3516065817, 3600352804, 4094571909, 275423344,
   430227734, 506948616, 659060556, 883997877, 958139571, 1322822218,
   1537002063, 1747873779, 1955562222, 2024104815, 2227730452, 2361852424,
   2428436474, 2756734187, 3204031479, 3329325298]

/-- The SHA-256 working state: eight 32-bit words. -/
structure H8 where
  a : Nat
  b : Nat
  c : Nat
  d : Nat
  e : Nat
  f : Nat
  g : Nat
  h : Nat

/-- SHA-256 initial hash value. -/
def sha256H0 : H8 :=
  ⟨1779033703, 3144134277, 1013904242, 2773480762, 1359893119, 2600822924, 528734635, 1541459225⟩

/-- FIPS 180-4 padding: append `0x80`, zero bytes, and the 64-bit big-endian
bit length, reaching a multiple of 64 bytes. -/
def sha256Pad (msg : List Nat) : List Nat :=
  let bitLen := 8 * msg.length
  let zeros := (64 + 56 - (msg.length + 1) % 64) % 64
  msg ++ [0x80] ++ List.replicate zeros 0 ++
    ((List.range 8).map fun i => (bitLen >>> (8 * (7 - i))) % 256)

/-- Splits a byte list into 64-byte chunks.  The first argument is fuel
(structural recursion so the kernel can evaluate); `chunks64` supplies the
list length, which bounds the number of chunks. -/
def chunksAux : Nat → List Nat → List (List Nat)
  | 0, _ => []
  | _, [] => []
  | fuel + 1, l => l.take 64 :: chunksAux fuel (l.drop 64)

def chunks64 (l : List Nat) : List (List Nat) :=
  chunksAux l.length l

/-- The next word of the message schedule, computed from the last 16. -/
def nextWord (w : List Nat) : Nat :=
  w32 (smallSigma1 (w.getD (w.length - 2) 0) + w.getD (w.length - 7) 0 +
    smallSigma0 (w.getD (w.length - 15) 0) + w.getD (w.length - 16) 0)

/-- The 64-entry message schedule of one 64-byte block. -/
def sched64 (block : List Nat) : List Nat :=
  let w16 := (List.range 16).map fun i =>
    (block.getD (4 * i) 0) * 2 ^ 24 + (block.getD (4 * i + 1) 0) * 2 ^ 16 +
      (block.getD (4 * i + 2) 0) * 2 ^ 8 + block.getD (4 * i + 3) 0
  (List.range 48).foldl (fun w _ => w ++ [nextWord w]) w16

/-- One SHA-256 round. -/
def sha256Round (st : H8) (k w : Nat) : H8 :=
  let t1 := w32 (st.h + bigSigma1 st.e + chF st.e st.f st.g + k + w)
  let t2 := w32 (bigSigma0 st.a + majF st.a st.b st.c)
  ⟨w32 (t1 + t2), st.a, st.b, st.c, w32 (st.d + t1), st.e, st.f, st.g⟩

/-- Compression of one 64-byte block. -/
def compressBlock (st : H8) (block : List Nat) : H8 :=
  let ws := sched64 block
  let fin := (sha256K.zip ws).foldl (fun s kw => sha256Round s kw.1 kw.2) st
  ⟨w32 (st.a + fin.a), w32 (st.b + fin.b), w32 (st.c + fin.c), w32 (st.d + fin.d),
   w32 (st.e + fin.e), w32 (st.f + fin.f), w32 (st.g + fin.g), w32 (st.h + fin.h)⟩

/-- The four big-endian bytes of one word. -/
def wordBytes (x : Nat) : List Nat :=
  [(x >>> 24) % 256, (x >>> 16) % 256, (x >>> 8) % 256, x % 256]

/-- The 32 digest bytes of a final state. -/
def digestBytes (st : H8) : List Nat :=
  ([st.a, st.b, st.c, st.d, st.e, st.f, st.g, st.h].map wordBytes).flatten

/-- SHA-256 digest (as bytes) of a byte message. -/
def sha256 (msg : List Nat) : List Nat :=
  digestBytes ((chunks64 (sha256Pad msg)).foldl compressBlock sha256H0)

/-- Lowercase hex digit for a nibble, as produced by JavaScript
`toString(16)`. -/
def hexChar (n : Nat) : Char :=
  if n < 10 then Char.ofNat (48 + n) else Char.ofNat (87 + n)

/-- Two-character hex encoding of a byte: `b.toString(16).padStart(2, "0")`. -/
def hexByte (b : Nat) : String :=
  ⟨[hexChar (b / 16), hexChar (b % 16)]⟩

/-- Hex encoding of a byte list:
`hashArray.map(b => b.toString(16).padStart(2, "0")).join("")`. -/
def hexOfBytes : List Nat → String
  | [] => ""
  | b :: bs => hexByte b ++ hexOfBytes bs

/-- UTF-8 bytes of a string: `new TextEncoder().encode(message)`. -/
def utf8Bytes (s : String) : List Nat :=
  (s.data.flatMap String.utf8EncodeChar).map fun b => b.toNat

/-- The `sha256` function of `persisted.ts`: UTF-8 encode, digest, hex. -/
def sha256hex (s : String) : String :=
  hexOfBytes (sha256 (utf8Bytes s))

/-! ### The LRU cache (`lru-cache` with `{ max: 1000 }`) and `hashCache` -/

/-- LRU cache embedded as a most-recent-first association list with a
capacity bound. -/
structure LRU where
  maxSize : Nat
  entries : List (String × String)
  deriving DecidableEq

/-- The module-level `new LRUCache({ max: 1000 })` of `persisted.ts`, in its
initial (empty) state. -/
def lruEmpty : LRU := ⟨1000, []⟩

/-- `cache.get(key)`: returns the stored value and refreshes its recency. -/
def lruGet (c : LRU) (k : String) : Option String × LRU :=
  match c.entries.find? (fun e => e.1 == k) with
  | some e => (some e.2, ⟨c.maxSize, e :: c.entries.filter fun e2 => e2.1 != k⟩)
  | none => (none, c)

/-- `cache.set(key, value)`: inserts most-recent, evicting beyond capacity. -/
def lruSet (c : LRU) (k v : String) : LRU :=
  ⟨c.maxSize, ((k, v) :: c.entries.filter fun e => e.1 != k).take c.maxSize⟩

/-- Plain lookup (no recency effect), for stating cache contents. -/
def lruLookup (c : LRU) (k : String) : Option String :=
  (c.entries.find? fun e => e.1 == k).map (·.2)

/-- The `hashCache` function of `persisted.ts`, with the cache state passed
explicitly.  The `Bool` component records whether `sha256` was invoked on
this call (`true` = digest computed, `false` = served from the cache).
The `cached = ""` test mirrors the JavaScript truthiness check
`if (cached)`. -/
def hashCache (c : LRU) (q : String) : String × LRU × Bool :=
  match lruGet c q with
  | (some cached, c1) =>
    if cached = "" then
      let h := sha256hex q
      (h, lruSet c1 q h, true)
    else
      (cached, c1, false)
  | (none, c1) =>
    let h := sha256hex q
    (h, lruSet c1 q h, true)

/-! ### Digest shape lemmas -/

/-- Lowercase hexadecimal digit predicate, on character codes. -/
def isLowerHexDigit (c : Char) : Bool :=
  (48 ≤ c.toNat && c.toNat ≤ 57) || (97 ≤ c.toNat && c.toNat ≤ 102)

/-! ### JSON values

JavaScript strings carrying JSON are represented by the value they parse
to.  `JVal.num` carries an `Int` (fractional numbers do not occur in the
protocol fields the claims are about). -/
inductive JVal where
  | null
  | bool (b : Bool)
  | num (n : Int)
  | str (s : String)
  | arr (xs : List JVal)
  | obj (fields : List (String × JVal))

/-- JavaScript property access `v[k]` on a parsed JSON value: defined for
objects, `undefined` (`none`) otherwise. -/
def jget (v : JVal) (k : String) : Option JVal :=
  match v with
  | .obj fs => (fs.find? fun f => f.1 == k).map (·.2)
  | _ => none

/-- `\x7b...body, k: x\x7d`: object spread with one key overridden (replaced
in place when present, appended otherwise).  Only ever applied to objects in
the transport; other values are returned unchanged. -/
def objSet (v : JVal) (k : String) (x : JVal) : JVal :=
  match v with
  | .obj fs =>
    .obj (if fs.any fun f => f.1 == k then
            fs.map fun f => if f.1 == k then (k, x) else f
          else fs ++ [(k, x)])
  | other => other

/-- `const \x7bk, ...rest\x7d = v`: removal of one key from an object. -/
def objRemove (v : JVal) (k : String) : JVal :=
  match v with
  | .obj fs => .obj (fs.filter fun f => f.1 != k)
  | other => other

/-- `isGraphQLRequest` of `persisted.ts`: `typeof req === "object" && req
!== null`.  JavaScript arrays have typeof `"object"`, so they pass. -/
def isGraphQLRequest : JVal → Bool
  | .obj _ => true
  | .arr _ => true
  | _ => false

/-- `isGraphQLResponse` of `persisted.ts`: a truthy object whose `errors`
property, when present, is an array. -/
def isGraphQLResponse : JVal → Bool
  | .obj fs =>
    match ((fs.find? fun f => f.1 == "errors").map (·.2) : Option JVal) with
    | some (.arr _) => true
    | some _ => false
    | none => true
  | .arr _ => true
  | _ => false

/-- The `errors` array of a response body, when it is one. -/
def bodyErrors (v : JVal) : Option (List JVal) :=
  match jget v "errors" with
  | some (.arr es) => some es
  | _ => none

/-- `err.message` when it is a string (`===` against a string is false
otherwise). -/
def errMessage (e : JVal) : Option String :=
  match jget e "message" with
  | some (.str s) => some s
  | _ => none

/-- `err.extensions?.code` when it is a string. -/
def errCode (e : JVal) : Option String :=
  match jget e "extensions" with
  | some ext =>
    match jget ext "code" with
    | some (.str s) => some s
    | _ => none
  | none => none

/-- `isPersistedQueryNotFoundError` of `persisted.ts`. -/
def isPersistedQueryNotFoundError (b : JVal) : Bool :=
  isGraphQLResponse b &&
    match bodyErrors b with
    | some es =>
      decide (0 < es.length) &&
        es.any fun e =>
          errMessage e == some "PersistedQueryNotFound" ||
            errCode e == some "PERSISTED_QUERY_NOT_FOUND"
    | none => false

/-! ### Requests and URL search parameters -/

/-- A URL split into the part before `?` and its search parameters, as
`splitUrlAndSearchParams` produces it. -/
structure URLParts where
  base : String
  params : List (String × String)

/-- `URLSearchParams.get`: first value under the name. -/
def paramsGet (ps : List (String × String)) (k : String) : Option String :=
  (ps.find? fun p => p.1 == k).map (·.2)

/-- `URLSearchParams.delete`: removes every value under the name. -/
def paramsDelete (ps : List (String × String)) (k : String) : List (String × String) :=
  ps.filter fun p => p.1 != k

/-- `URLSearchParams.append`: adds a value at the end. -/
def paramsAppend (ps : List (String × String)) (k v : String) : List (String × String) :=
  ps ++ [(k, v)]

/-- A fetch body.  A string body is represented by the JSON value it parses
to (`jstr`); `nonString` stands for any non-string body (FormData, Blob,
missing serializer output, ...). -/
inductive BodyVal where
  | jstr (v : JVal)
  | nonString

/-- Fetch init options (the fields the transport reads or writes). -/
structure ReqInit where
  method : Option String
  body : Option BodyVal
  keepalive : Option Bool

/-- The internal request pairing of `persisted.ts`: `\x7b info, init \x7d`. -/
structure Req where
  info : URLParts
  init : Option ReqInit

/-- An upstream HTTP response.  `body = some v` means the body text parses
to the JSON value `v`; `none` means `res.json()` would reject.  `ok` is
derived from the status as the Fetch API does. -/
structure HttpResp where
  status : Nat
  statusText : String
  headers : List (String × String)
  body : Option JVal

def respOk (r : HttpResp) : Bool := 200 ≤ r.status && r.status < 300

/-- Outcomes of a persisted-query send that do not produce a response:
`fatal msg` is a synchronous `throw new Error(msg)` raised before any
network call; `jsonParse` is a rejection of `res.clone().json()`. -/
inductive PQErr where
  | fatal (msg : String)
  | jsonParse

/-- `JSON.stringify(\x7bpersistedQuery: \x7bversion: 1, sha256Hash: hash\x7d\x7d)`. -/
def extensionsJson (hash : String) : String :=
  "\x7b\"persistedQuery\":\x7b\"version\":1,\"sha256Hash\":\"" ++ hash ++ "\"\x7d\x7d"

/-- The same extensions object as a JSON value (POST body form). -/
def extensionsJVal (hash : String) : JVal :=
  .obj [("persistedQuery", .obj [("version", .num 1), ("sha256Hash", .str hash)])]

/-- `requestProcessorByMethod.GET.addHash`.  The `q = ""` test mirrors the
JavaScript truthiness check `if (!query)`. -/
def getAddHash (cache : LRU) (r : Req) : Except PQErr (Req × LRU) :=
  match paramsGet r.info.params "query" with
  | none => .error (.fatal "GET request must contain a query parameter")
  | some q =>
    if q = "" then .error (.fatal "GET request must contain a query parameter")
    else
      let res := hashCache cache q
      .ok ({ r with info := { r.info with
               params := paramsAppend r.info.params "extensions" (extensionsJson res.1) } },
           res.2.1)

/-- `requestProcessorByMethod.GET.removeQuery`. -/
def getRemoveQuery (r : Req) : Req :=
  { r with info := { r.info with params := paramsDelete r.info.params "query" } }

def emptyInit : ReqInit := ⟨none, none, none⟩

/-- `request.init?.body`. -/
def postBody (r : Req) : Option BodyVal := r.init.bind (·.body)

/-- `requestProcessorByMethod.POST.addHash`. -/
def postAddHash (cache : LRU) (r : Req) : Except PQErr (Req × LRU) :=
  match postBody r with
  | some (.jstr v) =>
    if !isGraphQLRequest v then .error (.fatal "POST request body must be a GraphQL request")
    else
      match jget v "query" with
      | some (.str q) =>
        let res := hashCache cache q
        .ok ({ r with init := some { r.init.getD emptyInit with
                 body := some (.jstr (objSet v "extensions" (extensionsJVal res.1))) } },
             res.2.1)
      | _ => .error (.fatal "POST request body must contain a query")
  | _ => .error (.fatal "POST request must contain a body")

/-- `requestProcessorByMethod.POST.removeQuery`. -/
def postRemoveQuery (r : Req) : Except PQErr Req :=
  match postBody r with
  | some (.jstr v) =>
    if !isGraphQLRequest v then .error (.fatal "POST request body must be a GraphQL request")
    else .ok { r with init := some { r.init.getD emptyInit with
                 body := some (.jstr (objRemove v "query")) } }
  | _ => .error (.fatal "POST request must contain a body")

/-- `String.prototype.toUpperCase` (character-wise uppercase; method names
are ASCII). -/
def jsToUpper (s : String) : String :=
  ⟨s.data.map Char.toUpper⟩

/-- `(request.init?.method ?? "GET").toUpperCase()`. -/
def methodOf (r : Req) : String :=
  jsToUpper ((r.init.bind (·.method)).getD "GET")

/-- The network phase of `createPersistedQueryFetch`: send the
without-query request; pass a non-ok response through unchanged; on a
persisted-query-not-found body re-send the with-hash request; otherwise
return a response rebuilt from the already-read body and the original
status, statusText and headers. -/
def pqStage2 (cache : LRU) (withHash withoutQuery : Req) (res1 res2 : HttpResp) :
    List Req × LRU × Except PQErr HttpResp :=
  if !respOk res1 then ([withoutQuery], cache, .ok res1)
  else
    match res1.body with
    | none => ([withoutQuery], cache, .error .jsonParse)
    | some b =>
      if isPersistedQueryNotFoundError b then ([withoutQuery, withHash], cache, .ok res2)
      else
        ([withoutQuery], cache,
         .ok { status := res1.status, statusText := res1.statusText,
               headers := res1.headers, body := some b })

/-- `createPersistedQueryFetch(fetchImpl)` applied to one request.  The
underlying fetch is made explicit: `res1` and `res2` are the responses it
would return to the first and second call, and the first component of the
result is the trace of calls actually handed to it (empty when a fatal
error is raised before any network call). -/
def persistedQueryFetch (cache : LRU) (r : Req) (res1 res2 : HttpResp) :
    List Req × LRU × Except PQErr HttpResp :=
  if methodOf r = "GET" then
    match getAddHash cache r with
    | .error e => ([], cache, .error e)
    | .ok (withHash, cache1) => pqStage2 cache1 withHash (getRemoveQuery withHash) res1 res2
  else if methodOf r = "POST" then
    match postAddHash cache r with
    | .error e => ([], cache, .error e)
    | .ok (withHash, cache1) =>
      match postRemoveQuery withHash with
      | .error e => ([], cache1, .error e)
      | .ok withoutQuery => pqStage2 cache1 withHash withoutQuery res1 res2
  else ([], cache, .error (.fatal ("Unsupported request method: " ++ methodOf r)))

/-! ### Cache well-formedness: every stored digest is the SHA-256 of its
key.  Every state reachable through `hashCache` satisfies it. -/
def lruWF (c : LRU) : Prop := ∀ p ∈ c.entries, p.2 = sha256hex p.1

def w1Req : Req :=
  { info := { base := "http://api.example.com/graphql", params := [("query", "query q1")] },
    init := some { method := some "GET", body := none, keepalive := none } }

def w1NotFoundBody : JVal :=
  .obj [("errors", .arr [.obj [("message", .str "PersistedQueryNotFound")]])]

def w1Res1 : HttpResp :=
  { status := 200, statusText := "OK", headers := [], body := some w1NotFoundBody }

def w1Res2 : HttpResp :=
  { status := 200, statusText := "OK", headers := [], body := some (.obj [("data", .null)]) }

def w5Base : URLParts := { base := "http://api.example.com/graphql", params := [] }

def w5Put : Req :=
  { info := w5Base,
    init := some { method := some "PUT",
                   body := some (.jstr (.obj [("query", .str "query q1")])),
                   keepalive := none } }

def w5GetNoQuery : Req :=
  { info := w5Base, init := some { method := some "GET", body := none, keepalive := none } }

def w5PostForm : Req :=
  { info := w5Base,
    init := some { method := some "POST", body := some .nonString, keepalive := none } }

def w5PostNoQ : Req :=
  { info := w5Base,
    init := some { method := some "POST",
                   body := some (.jstr (.obj [("invalid", .str "body")])),
                   keepalive := none } }

def w5Res : HttpResp := { status := 200, statusText := "OK", headers := [], body := none }

/-! ### The fetch wiring of `createClient` (claim C2)

In `client.ts` the persisted-query wrapper is present only as commented-out
code; the fetch actually installed is
`(url, init) => fetch(url, \x7b keepalive: true, ...init \x7d)`. -/

/-- `\x7b keepalive: true, ...init \x7d`: the spread lets an init that carries
its own keepalive override the default `true`; all other fields pass
through. -/
def keepaliveInit (init : Option ReqInit) : ReqInit :=
  let i := init.getD emptyInit
  { i with keepalive := some (i.keepalive.getD true) }

/-- The fetch installed by `createClient`: a single underlying call with
the URL unchanged and the keepalive-augmented init. -/
def clientFetch (r : Req) (res1 : HttpResp) : List Req × HttpResp :=
  ([{ info := r.info, init := some (keepaliveInit r.init) }], res1)

/-- Modelled from the spec: the fetch wiring the spec describes for
`createClient` — the PersistedQueryTransport wrapper around the
keepalive-passing fetch.  In the source this wiring exists only as
commented-out code. -/
def specClientFetch (cache : LRU) (r : Req) (res1 res2 : HttpResp) :
    List Req × LRU × Except PQErr HttpResp :=
  let out := persistedQueryFetch cache r res1 res2
  (out.1.map fun c => { info := c.info, init := some (keepaliveInit c.init) }, out.2)

def cexGetReq : Req :=
  { info := { base := "http://api.example.com/graphql", params := [("query", "query q1")] },
    init := some { method := some "GET", body := none, keepalive := none } }

def cexRes1 : HttpResp :=
  { status := 200, statusText := "OK", headers := [],
    body := some (.obj [("errors", .arr [.obj [("message", .str "PersistedQueryNotFound")]])]) }

def cexRes2 : HttpResp :=
  { status := 200, statusText := "OK", headers := [], body := some (.obj [("data", .null)]) }

/-! ### The response middleware (`createResponseMiddleware` in `client.ts`)

Header collections are association lists with lower-cased names (`Headers`
lookups are case-insensitive).  The `set-cookie-parser` dependency is an
external collaborator: the middleware takes the parsing function as an
argument and the claims quantify over its output. -/

/-- JavaScript `parseInt` on the strings that reach it here: an optional
sign followed by a maximal run of decimal digits; `none` models `NaN`. -/
def digitsToNat (ds : List Char) : Nat :=
  ds.foldl (fun a c => a * 10 + (c.toNat - 48)) 0

def jsParseIntChars (cs : List Char) : Option Int :=
  match cs.takeWhile (·.isDigit) with
  | [] => none
  | ds => some (digitsToNat ds : Int)

def jsParseInt (s : String) : Option Int :=
  match s.data with
  | '-' :: rest => (jsParseIntChars rest).map fun n => -n
  | '+' :: rest => jsParseIntChars rest
  | cs => jsParseIntChars cs

/-- `Headers.set`: replace any existing value under the (lower-cased) name. -/
def headersSet (hs : List (String × String)) (k v : String) : List (String × String) :=
  paramsDelete hs k ++ [(k, v)]

/-- The headers thunk of `createClient`: immediately before every send,
`headers.set("x-request-at", Date.now().toString())`. -/
def setRequestAt (hs : List (String × String)) (now : Int) : List (String × String) :=
  headersSet hs "x-request-at" (toString now)

/-- An entry of a GraphQL error list, with the two fields the middleware
reads: `message` and `extensions?.code`. -/
structure GqlErrorEntry where
  message : Option String
  extCode : Option String
  deriving DecidableEq

/-- `GraphQLRequestContext` (the `request` carried by a ClientError).
`vars` embeds the source field `variables` (a reserved word in Lean);
variable values are strings — sufficient for the password claims, which
compare the field by JavaScript truthiness. -/
structure GraphQLRequestContext where
  query : String
  vars : Option (List (String × String))
  deriving DecidableEq

/-- The `response` carried by a ClientError: HTTP status and error list. -/
structure ClientErrorResponse where
  status : Nat
  errors : Option (List GqlErrorEntry)
  deriving DecidableEq

/-- A `graphql-request` ClientError as the middleware sees it. -/
structure ClientErrorState where
  message : String
  stack : Option String
  request : GraphQLRequestContext
  response : ClientErrorResponse
  deriving DecidableEq

/-- A cookie as `set-cookie-parser` produces it (`parse` with `map: true`,
`decodeValues: true`); `expires` is kept opaque as its source text. -/
structure ParsedCookie where
  name : String
  value : String
  path : Option String
  expires : Option String
  maxAge : Option Int
  secure : Option Bool
  domain : Option String
  sameSite : Option String
  httpOnly : Option Bool
  deriving DecidableEq

/-- The option bag handed to `response.cookie(key, value, options)`. -/
structure CookieOpts where
  value : String
  path : Option String
  expires : Option String
  maxAge : Option Int
  secure : Option Bool
  domain : Option String
  sameSite : String
  httpOnly : Bool
  deriving DecidableEq

/-- One `response.cookie(...)` call of the relay loop:
`maxAge: newCookie.maxAge ? newCookie.maxAge * 1000 : undefined`,
`sameSite: "lax"`, `httpOnly: true`, the rest from the parsed cookie. -/
def relayCookie (c : ParsedCookie) : String × CookieOpts :=
  (c.name,
   { value := c.value, path := c.path, expires := c.expires,
     maxAge := match c.maxAge with
       | some m => if m = 0 then none else some (m * 1000)
       | none => none,
     secure := c.secure, domain := c.domain,
     sameSite := "lax", httpOnly := true })

/-- What a middleware invocation writes to the request-scoped logger. -/
inductive LogItem where
  | info (reqId : Option String) (opName : Option String) (status : Nat) (duration : Option Int)
  | warnHeadersSent
  | errorEntry (e : GqlErrorEntry)
  | errorClient (e : ClientErrorState)
  | errorOther (msg : String)
  deriving DecidableEq

/-- What a middleware invocation throws, if anything. -/
inductive ThrownVal where
  | response (msg : String) (status : Nat)
  | rethrown (msg : String)
  deriving DecidableEq

/-- The observable effects of one middleware invocation. -/
structure MWOut where
  logs : List LogItem
  cookies : List (String × CookieOpts)
  serverTimingAppend : Option String
  thrown : Option ThrownVal
  deriving DecidableEq

/-- A successful upstream response as the middleware sees it. -/
structure MWResp where
  status : Nat
  headers : List (String × String)
  deriving DecidableEq

/-- The argument of the middleware: a response, a ClientError, or any other
error. -/
inductive GqlResult where
  | resp (r : MWResp)
  | clientError (e : ClientErrorState)
  | otherError (msg : String)

/-- The password redaction of the ClientError branch.  The `pw = ""` test
mirrors the JavaScript truthiness check `if (errRequest.variables &&
errRequest.variables.password)`. -/
def redactClientError (e : ClientErrorState) : ClientErrorState :=
  match e.request.vars with
  | some vars =>
    match paramsGet vars "password" with
    | some pw =>
      if pw = "" then e
      else
        { e with
          request := { e.request with vars := some (paramsDelete vars "password") },
          stack := none, message := "--redacted--" }
    | none => e
  | none => e

/-- The `for ... of errors` loop: the first entry with extensions code
"unauthorized", if any. -/
def findUnauthorized (es : List GqlErrorEntry) : Option GqlErrorEntry :=
  es.find? fun e => e.extCode == some "unauthorized"

/-- `Date.now() - parseInt(reqStarted || "0")`, reading `x-request-at`
from the response headers; `none` models `NaN`. -/
def mwDuration (headers : List (String × String)) (now : Int) : Option Int :=
  let reqStarted :=
    match paramsGet headers "x-request-at" with
    | some s => if s = "" then "0" else s
    | none => "0"
  (jsParseInt reqStarted).map fun t => now - t

/-- `createResponseMiddleware(request, response, skipCookies)` applied to
one completed send.  `headersSent` is the outbound response's
`headersSent` flag, `now` the clock at invocation, `opName` the outbound
request's operation name, `parseSetCookie` the external cookie parser. -/
def createResponseMiddleware (skipCookies headersSent : Bool) (now : Int)
    (opName : Option String) (parseSetCookie : String → List ParsedCookie)
    (res : GqlResult) : MWOut :=
  match res with
  | .resp r =>
    let gqlReqId := paramsGet r.headers "x-request-id"
    let infoLog := LogItem.info gqlReqId opName r.status (mwDuration r.headers now)
    if headersSent then
      { logs := [infoLog, .warnHeadersSent], cookies := [], serverTimingAppend := none,
        thrown := none }
    else
      let st :=
        match paramsGet r.headers "server-timing" with
        | some s => if s = "" then none else some s
        | none => none
      let cookies :=
        match paramsGet r.headers "set-cookie" with
        | some sc =>
          if !skipCookies && sc != "" then (parseSetCookie sc).map relayCookie else []
        | none => []
      { logs := [infoLog], cookies := cookies, serverTimingAppend := st, thrown := none }
  | .clientError e0 =>
    let e := redactClientError e0
    match findUnauthorized (e.response.errors.getD []) with
    | some u =>
      { logs := [.errorEntry u], cookies := [], serverTimingAppend := none,
        thrown := some (.response "Unauthorized" 403) }
    | none =>
      { logs := [.errorClient e], cookies := [], serverTimingAppend := none,
        thrown := some (.response e.message e.response.status) }
  | .otherError msg =>
    { logs := [.errorOther msg], cookies := [], serverTimingAppend := none,
      thrown := some (.rethrown msg) }

/-- Occurrence of a literal inside an optional string. -/
def optMentions (o : Option String) (lit : String) : Bool :=
  match o with
  | some s => strContainsLit s lit
  | none => false

/-- Occurrence of a literal anywhere in a logged ClientError: its message,
stack, request query text, request variables, or upstream error texts. -/
def clientErrorMentions (e : ClientErrorState) (lit : String) : Bool :=
  strContainsLit e.message lit || optMentions e.stack lit ||
    strContainsLit e.request.query lit ||
    (match e.request.vars with
     | some vs => vs.any fun p => strContainsLit p.1 lit || strContainsLit p.2 lit
     | none => false) ||
    (e.response.errors.getD []).any fun en =>
      optMentions en.message lit || optMentions en.extCode lit

/-- Occurrence of a literal in a thrown failure. -/
def thrownMentions (t : ThrownVal) (lit : String) : Bool :=
  match t with
  | .response m _ => strContainsLit m lit
  | .rethrown m => strContainsLit m lit

def w4Err : ClientErrorState :=
  { message := "unauthorized dump", stack := some "stacktrace",
    request := { query := "query admin", vars := none },
    response :=
      { status := 500,
        errors := some [⟨some "boom", none⟩, ⟨some "unauthorized", some "unauthorized"⟩] } }

def cexClientErr : ClientErrorState :=
  { message := "Invalid credentials: full dump",
    stack := some "Error: at login",
    request := { query := "mutation LoginFail login(email, password: \"secret123\")",
                 vars := some [("password", "secret123")] },
    response := { status := 400, errors := some [⟨some "Invalid credentials", none⟩] } }

def w10Err : ClientErrorState :=
  { message := "Invalid credentials", stack := some "stacktrace",
    request := { query := "mutation login", vars := some [("password", "")] },
    response := { status := 400, errors := some [⟨some "Invalid credentials", none⟩] } }

def cexRespNoEcho : MWResp := { status := 200, headers := [] }

def w7Resp : MWResp := { status := 200, headers := [("x-request-at", "4000")] }

def w8Cookie : ParsedCookie :=
  { name := "_rt", value := "token2", path := some "/", expires := none,
    maxAge := some 3600, secure := some true, domain := some "example.com",
    sameSite := some "strict", httpOnly := some false }

def w8Resp : MWResp :=
  { status := 200, headers := [("set-cookie", "_rt=token2; path=/; max-age=3600; secure")] }

def w9Cookie : ParsedCookie :=
  { name := "_at", value := "gone", path := some "/", expires := none,
    maxAge := some 0, secure := none, domain := none, sameSite := none,
    httpOnly := none }

def w9Resp : MWResp :=
  { status := 200, headers := [("set-cookie", "_at=gone; Max-Age=0")] }

set_option maxRecDepth 10000

theorem hexChar_isLowerHex {n : Nat} (h : n < 16) : isLowerHexDigit (hexChar n) = true := by
  interval_cases n <;> decide

theorem hexByte_length (b : Nat) : (hexByte b).length = 2 := rfl

theorem hexOfBytes_length (bs : List Nat) : (hexOfBytes bs).length = 2 * bs.length := by
  induction bs with
  | nil => rfl
  | cons b t ih =>
    simp only [hexOfBytes, String.length_append, hexByte_length, ih, List.length_cons]
    ring

theorem hexOfBytes_chars {bs : List Nat} (hb : ∀ b ∈ bs, b < 256) :
    ∀ c ∈ (hexOfBytes bs).data, isLowerHexDigit c = true := by
  induction bs with
  | nil => intro c hc; simp [hexOfBytes] at hc
  | cons b t ih =>
    intro c hc
    have hblt : b < 256 := hb b (by simp)
    have h1 : b / 16 < 16 := by omega
    have h2 : b % 16 < 16 := Nat.mod_lt _ (by norm_num)
    simp only [hexOfBytes, String.data_append, List.mem_append] at hc
    rcases hc with hc | hc
    · have : c = hexChar (b / 16) ∨ c = hexChar (b % 16) := by
        simpa [hexByte] using hc
      rcases this with rfl | rfl
      · exact hexChar_isLowerHex h1
      · exact hexChar_isLowerHex h2
    · exact ih (fun x hx => hb x (by simp [hx])) c hc

theorem digestBytes_length (st : H8) : (digestBytes st).length = 32 := rfl

theorem digestBytes_lt (st : H8) : ∀ b ∈ digestBytes st, b < 256 := by
  intro b hb
  simp only [digestBytes, List.mem_flatten, List.mem_map] at hb
  obtain ⟨l, ⟨w, _, rfl⟩, hbl⟩ := hb
  simp only [wordBytes, List.mem_cons, List.not_mem_nil, or_false] at hbl
  rcases hbl with rfl | rfl | rfl | rfl <;> exact Nat.mod_lt _ (by norm_num)

theorem sha256_length (msg : List Nat) : (sha256 msg).length = 32 := by
  simp [sha256, digestBytes_length]

theorem sha256_lt (msg : List Nat) : ∀ b ∈ sha256 msg, b < 256 := by
  simpa [sha256] using digestBytes_lt ((chunks64 (sha256Pad msg)).foldl compressBlock sha256H0)

theorem sha256hex_length (s : String) : (sha256hex s).length = 64 := by
  simp [sha256hex, hexOfBytes_length, sha256_length]

theorem sha256hex_chars (s : String) :
    ∀ c ∈ (sha256hex s).data, isLowerHexDigit c = true :=
  hexOfBytes_chars (sha256_lt (utf8Bytes s))

theorem sha256hex_ne_empty (s : String) : sha256hex s ≠ "" := by
  intro h
  have := sha256hex_length s
  rw [h] at this
  simp at this

/-- Sanity: the FIPS 180-4 test vector for "abc". -/
theorem sha256hex_abc :
    sha256hex "abc" = "ba7816bf8f01cfea414140de5dae2223b00361a396177a9cb410ff61f20015ad" := by
  rfl

/-- C6: For every query string Q, `hashCache(Q)` called twice returns the
identical digest; the digest is the 64-character lowercase hexadecimal
SHA-256 of the UTF-8 bytes of Q, computed on the first call, stored keyed by
the literal string, and returned from the cache without recomputation on the
second call with the identical string. -/
theorem hashCache_idempotent_sha256 (q : String) :
    (hashCache lruEmpty q).1 = hexOfBytes (sha256 (utf8Bytes q)) ∧
    (hashCache (hashCache lruEmpty q).2.1 q).1 = (hashCache lruEmpty q).1 ∧
    (hashCache lruEmpty q).1.length = 64 ∧
    (∀ c ∈ (hashCache lruEmpty q).1.data, isLowerHexDigit c = true) ∧
    (hashCache lruEmpty q).2.2 = true ∧
    (hashCache (hashCache lruEmpty q).2.1 q).2.2 = false ∧
    lruLookup (hashCache lruEmpty q).2.1 q = some (hashCache lruEmpty q).1 := by
  have hne : sha256hex q ≠ "" := sha256hex_ne_empty q
  have h1 : hashCache lruEmpty q = (sha256hex q, ⟨1000, [(q, sha256hex q)]⟩, true) := by
    simp [hashCache, lruGet, lruEmpty, lruSet]
  have h2 : hashCache (⟨1000, [(q, sha256hex q)]⟩ : LRU) q =
      (sha256hex q, ⟨1000, [(q, sha256hex q)]⟩, false) := by
    simp [hashCache, lruGet, List.find?, hne, List.filter]
  rw [h1]
  refine ⟨rfl, ?_, sha256hex_length q, sha256hex_chars q, rfl, ?_, ?_⟩
  · rw [h2]
  · rw [h2]
  · simp [lruLookup, List.find?]

/-! ### Search-parameter lemmas -/
theorem paramsGet_delete (ps : List (String × String)) (k : String) :
    paramsGet (paramsDelete ps k) k = none := by
  induction ps with
  | nil => rfl
  | cons p t ih =>
    by_cases h : p.1 = k
    · simpa [paramsDelete, List.filter_cons, h] using ih
    · have hne : (p.1 != k) = true := by simp [h]
      simp only [paramsDelete, List.filter_cons, hne, if_true]
      unfold paramsGet
      rw [List.find?_cons_of_neg _ (by simp [h])]
      exact ih

theorem mem_paramsDelete {ps : List (String × String)} {p : String × String} {k : String}
    (hp : p ∈ ps) (h : p.1 ≠ k) : p ∈ paramsDelete ps k :=
  List.mem_filter.mpr ⟨hp, by simpa using h⟩

theorem paramsGet_append_of_some {ps : List (String × String)} {k v : String}
    (h : paramsGet ps k = some v) (l : List (String × String)) :
    paramsGet (ps ++ l) k = some v := by
  induction ps with
  | nil => simp [paramsGet] at h
  | cons p t ih =>
    rw [List.cons_append]
    unfold paramsGet at h ⊢
    by_cases hp : p.1 = k
    · rw [List.find?_cons_of_pos _ (by simp [hp])] at h ⊢
      exact h
    · rw [List.find?_cons_of_neg _ (by simp [hp])] at h ⊢
      exact ih h

theorem lruWF_empty : lruWF lruEmpty := by
  intro p hp
  simp [lruEmpty] at hp

theorem hashCache_wf {c : LRU} (h : lruWF c) (q : String) :
    (hashCache c q).1 = sha256hex q ∧ lruWF (hashCache c q).2.1 := by
  unfold hashCache lruGet
  cases hfind : c.entries.find? fun e => e.1 == q with
  | none =>
    refine ⟨rfl, ?_⟩
    intro p hp
    simp only [lruSet] at hp
    have hp' := List.take_subset _ _ hp
    rcases List.mem_cons.mp hp' with rfl | hmem
    · rfl
    · exact h p (List.mem_filter.mp hmem).1
  | some e =>
    have hmem : e ∈ c.entries := List.mem_of_find?_eq_some hfind
    have hkey : e.1 = q := by
      have := List.find?_some hfind
      simpa using this
    have hval : e.2 = sha256hex q := by rw [h e hmem, hkey]
    have hne : ¬ e.2 = "" := by
      rw [hval]; exact sha256hex_ne_empty q
    simp only [hne, if_false]
    refine ⟨hval, ?_⟩
    intro p hp
    simp only [] at hp
    rcases List.mem_cons.mp hp with rfl | hmem2
    · exact h p hmem
    · exact h p (List.mem_filter.mp hmem2).1

/-! ### Dispatch equations for `persistedQueryFetch` -/
theorem persistedQueryFetch_eq_GET {cache : LRU} {r : Req} {res1 res2 : HttpResp}
    (hm : methodOf r = "GET") :
    persistedQueryFetch cache r res1 res2 =
      match getAddHash cache r with
      | .error e => ([], cache, .error e)
      | .ok (withHash, cache1) =>
        pqStage2 cache1 withHash (getRemoveQuery withHash) res1 res2 := by
  unfold persistedQueryFetch
  rw [hm]
  rw [if_pos rfl]

theorem persistedQueryFetch_eq_POST {cache : LRU} {r : Req} {res1 res2 : HttpResp}
    (hm : methodOf r = "POST") :
    persistedQueryFetch cache r res1 res2 =
      match postAddHash cache r with
      | .error e => ([], cache, .error e)
      | .ok (withHash, cache1) =>
        match postRemoveQuery withHash with
        | .error e => ([], cache1, .error e)
        | .ok withoutQuery => pqStage2 cache1 withHash withoutQuery res1 res2 := by
  unfold persistedQueryFetch
  rw [hm]
  rw [if_neg (by decide), if_pos rfl]

theorem persistedQueryFetch_eq_other {cache : LRU} {r : Req} {res1 res2 : HttpResp}
    (hm1 : methodOf r ≠ "GET") (hm2 : methodOf r ≠ "POST") :
    persistedQueryFetch cache r res1 res2 =
      ([], cache, .error (.fatal ("Unsupported request method: " ++ methodOf r))) := by
  unfold persistedQueryFetch
  rw [if_neg hm1, if_neg hm2]

theorem getAddHash_eq_ok {cache : LRU} {r : Req} {q : String}
    (hq : paramsGet r.info.params "query" = some q) (hqne : q ≠ "") :
    getAddHash cache r =
      .ok ({ r with info := { r.info with
               params := paramsAppend r.info.params "extensions"
                 (extensionsJson (hashCache cache q).1) } },
           (hashCache cache q).2.1) := by
  unfold getAddHash
  rw [hq]
  simp only [hqne, if_false]

/-- C1: For every GET send through createPersistedQueryFetch whose URL
carries a `query` parameter, the first network call URL contains no `query`
parameter and contains an `extensions` parameter holding the
persistedQuery/version-1/sha256Hash object for the digest of that query;
and exactly one second network call is made — using the with-hash request
whose URL contains the original `query` parameter, the second response
being returned as-is — precisely when the first response is ok and its
JSON body contains an error whose message is exactly
"PersistedQueryNotFound" or whose extensions code is
"PERSISTED_QUERY_NOT_FOUND"; otherwise no second call is made. -/
theorem persistedQueryFetch_GET_protocol
    (cache : LRU) (r : Req) (res1 res2 : HttpResp) (q : String) (b : JVal)
    (hwf : lruWF cache) (hm : methodOf r = "GET")
    (hq : paramsGet r.info.params "query" = some q) (hqne : q ≠ "")
    (hb : res1.body = some b) :
    ∃ firstCall rest,
      (persistedQueryFetch cache r res1 res2).1 = firstCall :: rest ∧
      paramsGet firstCall.info.params "query" = none ∧
      ("extensions", extensionsJson (sha256hex q)) ∈ firstCall.info.params ∧
      (respOk res1 = true → isPersistedQueryNotFoundError b = true →
        ∃ c2, rest = [c2] ∧ paramsGet c2.info.params "query" = some q ∧
          (persistedQueryFetch cache r res1 res2).2.2 = .ok res2) ∧
      (respOk res1 = false ∨ isPersistedQueryNotFoundError b = false → rest = []) := by
  have hhash := hashCache_wf hwf q
  set wh : Req := { r with info := { r.info with
      params := paramsAppend r.info.params "extensions"
        (extensionsJson (hashCache cache q).1) } } with hwh
  have hout : persistedQueryFetch cache r res1 res2 =
      pqStage2 (hashCache cache q).2.1 wh (getRemoveQuery wh) res1 res2 := by
    rw [persistedQueryFetch_eq_GET hm, getAddHash_eq_ok hq hqne]
  have hnoq : paramsGet (getRemoveQuery wh).info.params "query" = none :=
    paramsGet_delete _ _
  have hext : ("extensions", extensionsJson (sha256hex q)) ∈ (getRemoveQuery wh).info.params := by
    have hin : ("extensions", extensionsJson (hashCache cache q).1) ∈ wh.info.params := by
      simp [hwh, paramsAppend]
    rw [hhash.1] at hin
    exact mem_paramsDelete hin (by simp)
  have hwq : paramsGet wh.info.params "query" = some q := by
    rw [hwh]
    exact paramsGet_append_of_some hq _
  by_cases hok : respOk res1 = true
  · by_cases hpnf : isPersistedQueryNotFoundError b = true
    · have htr : persistedQueryFetch cache r res1 res2 =
          ([getRemoveQuery wh, wh], (hashCache cache q).2.1, .ok res2) := by
        rw [hout]; unfold pqStage2; rw [hok, hb]; simp [hpnf]
      refine ⟨getRemoveQuery wh, [wh], by rw [htr], hnoq, hext, ?_, ?_⟩
      · exact fun _ _ => ⟨wh, rfl, hwq, by rw [htr]⟩
      · rintro (h | h)
        · rw [h] at hok; exact Bool.noConfusion hok
        · rw [hpnf] at h; cases h
    · have hpnf' : isPersistedQueryNotFoundError b = false := by
        rwa [Bool.not_eq_true] at hpnf
      have htr : persistedQueryFetch cache r res1 res2 =
          ([getRemoveQuery wh], (hashCache cache q).2.1,
           .ok { status := res1.status, statusText := res1.statusText,
                 headers := res1.headers, body := some b }) := by
        rw [hout]; unfold pqStage2; rw [hok, hb]; simp [hpnf']
      refine ⟨getRemoveQuery wh, [], by rw [htr], hnoq, hext, ?_, fun _ => rfl⟩
      intro _ h2
      exact absurd h2 hpnf
  · have hok' : respOk res1 = false := by rwa [Bool.not_eq_true] at hok
    have htr : persistedQueryFetch cache r res1 res2 =
        ([getRemoveQuery wh], (hashCache cache q).2.1, .ok res1) := by
      rw [hout]; unfold pqStage2; rw [hok']; rfl
    refine ⟨getRemoveQuery wh, [], by rw [htr], hnoq, hext, ?_, fun _ => rfl⟩
    intro h1 _
    exact absurd h1 hok

theorem persistedQueryFetch_GET_protocol_witness :
    lruWF lruEmpty ∧ methodOf w1Req = "GET" ∧
    paramsGet w1Req.info.params "query" = some "query q1" ∧ "query q1" ≠ "" ∧
    w1Res1.body = some w1NotFoundBody ∧
    (∃ firstCall rest,
      (persistedQueryFetch lruEmpty w1Req w1Res1 w1Res2).1 = firstCall :: rest ∧
      paramsGet firstCall.info.params "query" = none ∧
      ("extensions", extensionsJson (sha256hex "query q1")) ∈ firstCall.info.params ∧
      (respOk w1Res1 = true → isPersistedQueryNotFoundError w1NotFoundBody = true →
        ∃ c2, rest = [c2] ∧ paramsGet c2.info.params "query" = some "query q1" ∧
          (persistedQueryFetch lruEmpty w1Req w1Res1 w1Res2).2.2 = .ok w1Res2) ∧
      (respOk w1Res1 = false ∨ isPersistedQueryNotFoundError w1NotFoundBody = false →
        rest = [])) :=
  ⟨lruWF_empty, rfl, rfl, by decide, rfl,
   persistedQueryFetch_GET_protocol lruEmpty w1Req w1Res1 w1Res2 "query q1" w1NotFoundBody
     lruWF_empty rfl rfl (by decide) rfl⟩

/-- C5: For every call with an init method other than GET or POST after
uppercasing (GET being the default), for every GET call whose URL has no
`query` parameter (or an empty one — falsy in the source), for every POST
call whose init body is not a string, and for every POST call whose parsed
body lacks a string `query` field, the call rejects with the corresponding
fatal error before the underlying fetch is invoked even once (the trace of
network calls is empty). -/
theorem persistedQueryFetch_fatal_before_fetch :
    (∀ (cache : LRU) (r : Req) (res1 res2 : HttpResp),
      methodOf r ≠ "GET" → methodOf r ≠ "POST" →
      persistedQueryFetch cache r res1 res2 =
        ([], cache, .error (.fatal ("Unsupported request method: " ++ methodOf r)))) ∧
    (∀ (cache : LRU) (r : Req) (res1 res2 : HttpResp),
      methodOf r = "GET" →
      (paramsGet r.info.params "query" = none ∨ paramsGet r.info.params "query" = some "") →
      persistedQueryFetch cache r res1 res2 =
        ([], cache, .error (.fatal "GET request must contain a query parameter"))) ∧
    (∀ (cache : LRU) (r : Req) (res1 res2 : HttpResp),
      methodOf r = "POST" → (∀ v, postBody r ≠ some (.jstr v)) →
      persistedQueryFetch cache r res1 res2 =
        ([], cache, .error (.fatal "POST request must contain a body"))) ∧
    (∀ (cache : LRU) (r : Req) (res1 res2 : HttpResp) (v : JVal),
      methodOf r = "POST" → postBody r = some (.jstr v) →
      isGraphQLRequest v = true → (∀ s, jget v "query" ≠ some (.str s)) →
      persistedQueryFetch cache r res1 res2 =
        ([], cache, .error (.fatal "POST request body must contain a query"))) := by
  refine ⟨?_, ?_, ?_, ?_⟩
  · intro cache r res1 res2 hm1 hm2
    exact persistedQueryFetch_eq_other hm1 hm2
  · intro cache r res1 res2 hm hq
    rw [persistedQueryFetch_eq_GET hm]
    rcases hq with h | h <;> simp [getAddHash, h]
  · intro cache r res1 res2 hm hnb
    rw [persistedQueryFetch_eq_POST hm]
    cases hpb : postBody r with
    | none => simp [postAddHash, hpb]
    | some bv =>
      cases bv with
      | jstr v => exact absurd hpb (hnb v)
      | nonString => simp [postAddHash, hpb]
  · intro cache r res1 res2 v hm hpb hgql hnq
    rw [persistedQueryFetch_eq_POST hm]
    cases hjq : jget v "query" with
    | none => simp [postAddHash, hpb, hgql, hjq]
    | some jv =>
      cases jv with
      | str s => exact absurd hjq (hnq s)
      | null => simp [postAddHash, hpb, hgql, hjq]
      | bool b => simp [postAddHash, hpb, hgql, hjq]
      | num n => simp [postAddHash, hpb, hgql, hjq]
      | arr xs => simp [postAddHash, hpb, hgql, hjq]
      | obj fs => simp [postAddHash, hpb, hgql, hjq]

theorem persistedQueryFetch_fatal_before_fetch_witness :
    (methodOf w5Put ≠ "GET" ∧ methodOf w5Put ≠ "POST" ∧
      persistedQueryFetch lruEmpty w5Put w5Res w5Res =
        ([], lruEmpty, .error (.fatal "Unsupported request method: PUT"))) ∧
    (persistedQueryFetch lruEmpty w5GetNoQuery w5Res w5Res =
      ([], lruEmpty, .error (.fatal "GET request must contain a query parameter"))) ∧
    (persistedQueryFetch lruEmpty w5PostForm w5Res w5Res =
      ([], lruEmpty, .error (.fatal "POST request must contain a body"))) ∧
    (persistedQueryFetch lruEmpty w5PostNoQ w5Res w5Res =
      ([], lruEmpty, .error (.fatal "POST request body must contain a query"))) := by
  refine ⟨⟨by decide, by decide, ?_⟩, ?_, ?_, ?_⟩
  · have := persistedQueryFetch_fatal_before_fetch.1 lruEmpty w5Put w5Res w5Res
      (by decide) (by decide)
    simpa using this
  · exact persistedQueryFetch_fatal_before_fetch.2.1 lruEmpty w5GetNoQuery w5Res w5Res
      (by decide) (Or.inl rfl)
  · refine persistedQueryFetch_fatal_before_fetch.2.2.1 lruEmpty w5PostForm w5Res w5Res
      (by decide) ?_
    intro v h
    simp [postBody, w5PostForm] at h
  · refine persistedQueryFetch_fatal_before_fetch.2.2.2 lruEmpty w5PostNoQ w5Res w5Res
      (.obj [("invalid", .str "body")]) (by decide) rfl rfl ?_
    intro s h
    simp [jget] at h

/-- C2 counterexample: for a GET send whose URL carries a query parameter,
the fetch installed by createClient makes exactly one underlying call whose
URL still carries the query parameter, while the transport the claim
describes (persisted-query wrapper over the keepalive fetch) would strip
the query parameter from its first call and, on a not-found response, make
a second call: the installed fetch is observably not the wrapper. -/
theorem createClient_fetch_not_persisted_cex :
    (clientFetch cexGetReq cexRes1).1.length = 1 ∧
    paramsGet ((clientFetch cexGetReq cexRes1).1.headD cexGetReq).info.params "query"
      = some "query q1" ∧
    (specClientFetch lruEmpty cexGetReq cexRes1 cexRes2).1.length = 2 ∧
    paramsGet ((specClientFetch lruEmpty cexGetReq cexRes1 cexRes2).1.headD
      cexGetReq).info.params "query" = none :=
  ⟨rfl, rfl, rfl, rfl⟩

/-- C2 (amended): every send performed by a client constructed via
createClient goes through a fetch that makes exactly one underlying
network call, passing keepalive: true (when the caller-supplied init does
not itself set keepalive — the spread lets it override) and leaving the
URL, method and body unchanged, and returns the underlying response as-is;
the persisted-query wrapper is not applied (it is commented out in the
source). -/
theorem clientFetch_single_call_keepalive (r : Req) (res1 : HttpResp)
    (h : r.init.bind (·.keepalive) = none) :
    ∃ c, (clientFetch r res1).1 = [c] ∧
      c.info = r.info ∧
      c.init.bind (·.keepalive) = some true ∧
      c.init.bind (·.method) = r.init.bind (·.method) ∧
      c.init.bind (·.body) = r.init.bind (·.body) ∧
      (clientFetch r res1).2 = res1 := by
  refine ⟨_, rfl, rfl, ?_, ?_, ?_, rfl⟩
  · cases hi : r.init with
    | none => simp [keepaliveInit, emptyInit]
    | some i =>
      have hk : i.keepalive = none := by simpa [hi] using h
      simp [keepaliveInit, hi, hk]
  · cases hi : r.init <;> simp [keepaliveInit, emptyInit, hi]
  · cases hi : r.init <;> simp [keepaliveInit, emptyInit, hi]

theorem clientFetch_single_call_keepalive_witness :
    cexGetReq.init.bind (·.keepalive) = none ∧
    (∃ c, (clientFetch cexGetReq cexRes2).1 = [c] ∧
      c.info = cexGetReq.info ∧
      c.init.bind (·.keepalive) = some true ∧
      c.init.bind (·.method) = cexGetReq.init.bind (·.method) ∧
      c.init.bind (·.body) = cexGetReq.init.bind (·.body) ∧
      (clientFetch cexGetReq cexRes2).2 = cexRes2) :=
  ⟨rfl, clientFetch_single_call_keepalive cexGetReq cexRes2 rfl⟩

theorem redact_response (e : ClientErrorState) :
    (redactClientError e).response = e.response := by
  unfold redactClientError
  repeat' split
  all_goals rfl

theorem mwClientError_eq (skip sent : Bool) (now : Int) (op : Option String)
    (parse : String → List ParsedCookie) (e0 : ClientErrorState) :
    createResponseMiddleware skip sent now op parse (.clientError e0) =
      match findUnauthorized ((redactClientError e0).response.errors.getD []) with
      | some u =>
        { logs := [.errorEntry u], cookies := [], serverTimingAppend := none,
          thrown := some (.response "Unauthorized" 403) }
      | none =>
        { logs := [.errorClient (redactClientError e0)], cookies := [],
          serverTimingAppend := none,
          thrown := some (.response (redactClientError e0).message
            (redactClientError e0).response.status) } := rfl

theorem redact_fires {e0 : ClientErrorState} {vars : List (String × String)} {pw : String}
    (hv : e0.request.vars = some vars) (hp : paramsGet vars "password" = some pw)
    (hne : pw ≠ "") :
    redactClientError e0 =
      { e0 with
        request := { e0.request with vars := some (paramsDelete vars "password") },
        stack := none, message := "--redacted--" } := by
  unfold redactClientError
  simp [hv, hp, hne]

theorem redact_skip {e0 : ClientErrorState} {vars : List (String × String)}
    (hv : e0.request.vars = some vars) (hp : paramsGet vars "password" = some "") :
    redactClientError e0 = e0 := by
  unfold redactClientError
  simp [hv, hp]

/-- C4: Whenever a ClientError errors list contains an entry with
extensions code "unauthorized", the middleware logs that (first such)
entry and throws a Response with status 403 and message "Unauthorized",
regardless of the upstream HTTP status carried by the error response, and
the generic branch — which would log the ClientError itself and throw with
the upstream status — is never reached. -/
theorem responseMiddleware_unauthorized_403
    (skip sent : Bool) (now : Int) (op : Option String)
    (parse : String → List ParsedCookie) (e0 : ClientErrorState) (u : GqlErrorEntry)
    (hu : findUnauthorized (e0.response.errors.getD []) = some u) :
    (createResponseMiddleware skip sent now op parse (.clientError e0)).thrown =
      some (.response "Unauthorized" 403) ∧
    (createResponseMiddleware skip sent now op parse (.clientError e0)).logs =
      [.errorEntry u] ∧
    ∀ e, LogItem.errorClient e ∉
      (createResponseMiddleware skip sent now op parse (.clientError e0)).logs := by
  have hr : findUnauthorized ((redactClientError e0).response.errors.getD []) = some u := by
    rw [redact_response]
    exact hu
  rw [mwClientError_eq]
  simp [hr]

theorem responseMiddleware_unauthorized_403_witness :
    findUnauthorized (w4Err.response.errors.getD []) =
      some ⟨some "unauthorized", some "unauthorized"⟩ ∧
    w4Err.response.status = 500 ∧
    (createResponseMiddleware false false 0 none (fun _ => []) (.clientError w4Err)).thrown =
      some (.response "Unauthorized" 403) :=
  ⟨rfl, rfl,
   (responseMiddleware_unauthorized_403 false false 0 none (fun _ => []) w4Err
     ⟨some "unauthorized", some "unauthorized"⟩ rfl).1⟩

/-- C3 counterexample: a ClientError whose request variables contain
password "secret123" and whose query text inlines the same literal — as
the repository's own redaction test does — is handed to the generic branch
with the query text unredacted, so the logged error still contains the
literal string "secret123"; the claim as stated is false. -/
theorem responseMiddleware_redaction_cex :
    paramsGet (cexClientErr.request.vars.getD []) "password" = some "secret123" ∧
    ((createResponseMiddleware false false 0 none (fun _ => [])
        (.clientError cexClientErr)).logs.any fun l =>
      match l with
      | .errorClient e => clientErrorMentions e "secret123"
      | _ => false) = true :=
  ⟨rfl, rfl⟩

/-- C3 (amended): for every ClientError whose request variables contain
password "secret123", the password key is deleted from the variables, the
stack removed and the message replaced with "--redacted--" before any
logging or throwing; consequently the thrown failure (either the 403
"Unauthorized" Response or the generic Response carrying the redacted
message) never contains the literal "secret123".  The logged error,
however, is redacted only in those three fields: its request query text,
remaining variables and upstream error texts are logged as-is and may
still contain the literal (see the counterexample). -/
theorem responseMiddleware_redaction (skip sent : Bool) (now : Int) (op : Option String)
    (parse : String → List ParsedCookie) (e0 : ClientErrorState)
    (vars : List (String × String))
    (hv : e0.request.vars = some vars)
    (hp : paramsGet vars "password" = some "secret123") :
    (redactClientError e0).request.vars = some (paramsDelete vars "password") ∧
    paramsGet (paramsDelete vars "password") "password" = none ∧
    (redactClientError e0).stack = none ∧
    (redactClientError e0).message = "--redacted--" ∧
    (∀ t, (createResponseMiddleware skip sent now op parse (.clientError e0)).thrown = some t →
      thrownMentions t "secret123" = false) ∧
    ((createResponseMiddleware skip sent now op parse (.clientError e0)).logs =
        [.errorClient (redactClientError e0)] ∨
      ∃ u, u ∈ e0.response.errors.getD [] ∧
        (createResponseMiddleware skip sent now op parse (.clientError e0)).logs =
          [.errorEntry u]) := by
  have hred := redact_fires hv hp (by decide)
  refine ⟨by rw [hred], paramsGet_delete _ _, by rw [hred], by rw [hred], ?_, ?_⟩
  · intro t ht
    rw [mwClientError_eq] at ht
    cases hfu : findUnauthorized ((redactClientError e0).response.errors.getD []) with
    | some u =>
      simp only [hfu] at ht
      obtain rfl := Option.some.inj ht
      decide
    | none =>
      simp only [hfu] at ht
      obtain rfl := Option.some.inj ht
      rw [hred]
      show strContainsLit "--redacted--" "secret123" = false
      decide
  · rw [mwClientError_eq]
    cases hfu : findUnauthorized ((redactClientError e0).response.errors.getD []) with
    | some u =>
      right
      have hfu' : findUnauthorized (e0.response.errors.getD []) = some u := by
        rw [← redact_response e0]
        exact hfu
      refine ⟨u, ?_, by simp only [hfu]⟩
      unfold findUnauthorized at hfu'
      exact List.mem_of_find?_eq_some hfu'
    | none =>
      left
      simp only [hfu]

theorem responseMiddleware_redaction_witness :
    cexClientErr.request.vars = some [("password", "secret123")] ∧
    paramsGet [("password", "secret123")] "password" = some "secret123" ∧
    ((redactClientError cexClientErr).request.vars =
        some (paramsDelete [("password", "secret123")] "password") ∧
      paramsGet (paramsDelete [("password", "secret123")] "password") "password" = none ∧
      (redactClientError cexClientErr).stack = none ∧
      (redactClientError cexClientErr).message = "--redacted--" ∧
      (∀ t, (createResponseMiddleware false false 0 none (fun _ => [])
          (.clientError cexClientErr)).thrown = some t →
        thrownMentions t "secret123" = false) ∧
      ((createResponseMiddleware false false 0 none (fun _ => [])
          (.clientError cexClientErr)).logs =
          [.errorClient (redactClientError cexClientErr)] ∨
        ∃ u, u ∈ cexClientErr.response.errors.getD [] ∧
          (createResponseMiddleware false false 0 none (fun _ => [])
            (.clientError cexClientErr)).logs = [.errorEntry u])) :=
  ⟨rfl, rfl,
   responseMiddleware_redaction false false 0 none (fun _ => []) cexClientErr
     [("password", "secret123")] rfl rfl⟩

/-- C10: Password redaction fires only when the variables password field is
truthy: for a ClientError whose variables carry password set to "" (and no
unauthorized entry, so the generic branch runs), the error object is left
unchanged — password key kept, stack preserved, message intact — and the
original message is logged and thrown with the upstream status. -/
theorem responseMiddleware_empty_password (skip sent : Bool) (now : Int) (op : Option String)
    (parse : String → List ParsedCookie) (e0 : ClientErrorState)
    (vars : List (String × String))
    (hv : e0.request.vars = some vars)
    (hp : paramsGet vars "password" = some "")
    (hnu : findUnauthorized (e0.response.errors.getD []) = none) :
    redactClientError e0 = e0 ∧
    (createResponseMiddleware skip sent now op parse (.clientError e0)).logs =
      [.errorClient e0] ∧
    (createResponseMiddleware skip sent now op parse (.clientError e0)).thrown =
      some (.response e0.message e0.response.status) := by
  have hid : redactClientError e0 = e0 := redact_skip hv hp
  have hfu : findUnauthorized ((redactClientError e0).response.errors.getD []) = none := by
    rw [redact_response]
    exact hnu
  refine ⟨hid, ?_, ?_⟩ <;> rw [mwClientError_eq] <;> simp only [hid, hnu]

theorem responseMiddleware_empty_password_witness :
    w10Err.request.vars = some [("password", "")] ∧
    paramsGet [("password", "")] "password" = some "" ∧
    findUnauthorized (w10Err.response.errors.getD []) = none ∧
    (redactClientError w10Err = w10Err ∧
      (createResponseMiddleware false false 0 none (fun _ => [])
        (.clientError w10Err)).logs = [.errorClient w10Err] ∧
      (createResponseMiddleware false false 0 none (fun _ => [])
        (.clientError w10Err)).thrown = some (.response w10Err.message 400)) :=
  ⟨rfl, rfl, rfl,
   responseMiddleware_empty_password false false 0 none (fun _ => []) w10Err
     [("password", "")] rfl rfl rfl⟩

/-- C7 counterexample: the middleware computes the duration from the
UPSTREAM RESPONSE headers, not from the request header collection: with a
request header collection whose x-request-at was set to 1000 immediately
before the send, a response that does not echo the header, and now = 5000,
the logged duration is 5000 (now minus epoch 0), not now minus the
request-collection timestamp (4000); the claim as stated is false. -/
theorem responseMiddleware_duration_cex :
    paramsGet (setRequestAt [] 1000) "x-request-at" = some "1000" ∧
    (createResponseMiddleware false false 5000 none (fun _ => [])
      (.resp cexRespNoEcho)).logs = [.info none none 200 (some 5000)] ∧
    (5000 : Int) ≠ 5000 - 1000 :=
  ⟨rfl, rfl, by decide⟩

/-- C7 (amended): the logged duration for a non-error response equals now
minus the integer value of the x-request-at header of the UPSTREAM
RESPONSE, or now minus 0 when that response header is absent or empty; the
timestamp set on the outbound request header collection before the send
influences the duration only if the upstream echoes it back. -/
theorem responseMiddleware_duration (skip sent : Bool) (now : Int) (op : Option String)
    (parse : String → List ParsedCookie) (r : MWResp) :
    (∃ reqId rest,
      (createResponseMiddleware skip sent now op parse (.resp r)).logs =
        .info reqId op r.status (mwDuration r.headers now) :: rest) ∧
    (paramsGet r.headers "x-request-at" = none → mwDuration r.headers now = some now) ∧
    (paramsGet r.headers "x-request-at" = some "" → mwDuration r.headers now = some now) ∧
    (∀ s t, paramsGet r.headers "x-request-at" = some s → jsParseInt s = some t →
      mwDuration r.headers now = some (now - t)) := by
  refine ⟨⟨paramsGet r.headers "x-request-id", ?_⟩, ?_, ?_, ?_⟩
  · unfold createResponseMiddleware
    cases sent with
    | false => exact ⟨[], rfl⟩
    | true => exact ⟨[.warnHeadersSent], rfl⟩
  · intro hx
    simp [mwDuration, hx, jsParseInt, jsParseIntChars, digitsToNat]
  · intro hx
    simp [mwDuration, hx, jsParseInt, jsParseIntChars, digitsToNat]
  · intro s t hx hpt
    by_cases hse : s = ""
    · subst hse
      simp [jsParseInt, jsParseIntChars] at hpt
    · simp [mwDuration, hx, hse, hpt]

theorem responseMiddleware_duration_witness :
    paramsGet w7Resp.headers "x-request-at" = some "4000" ∧
    jsParseInt "4000" = some 4000 ∧
    mwDuration w7Resp.headers 9000 = some (9000 - 4000) :=
  ⟨rfl, rfl,
   (responseMiddleware_duration false false 9000 none (fun _ => []) w7Resp).2.2.2
     "4000" 4000 rfl rfl⟩

/-- C8: For a non-error response carrying a set-cookie header, when cookie
relay is not disabled and the outbound response has not sent its headers,
every cookie produced by the parser is set on the outbound response with
max-age translated from seconds to milliseconds (3600 yields 3600000),
sameSite "lax" and httpOnly true hard-coded regardless of the parsed
cookie directives for those two attributes, while value, path, expires,
secure and domain are taken from the parsed cookie. -/
theorem responseMiddleware_cookie_relay (now : Int) (op : Option String)
    (parse : String → List ParsedCookie) (r : MWResp) (sc : String)
    (cs : List ParsedCookie)
    (hsc : paramsGet r.headers "set-cookie" = some sc) (hne : sc ≠ "")
    (hparse : parse sc = cs) :
    (createResponseMiddleware false false now op parse (.resp r)).cookies =
      cs.map relayCookie ∧
    ∀ c ∈ cs, ∃ o,
      (c.name, o) ∈ (createResponseMiddleware false false now op parse (.resp r)).cookies ∧
      o.sameSite = "lax" ∧ o.httpOnly = true ∧ o.value = c.value ∧ o.path = c.path ∧
      o.expires = c.expires ∧ o.secure = c.secure ∧ o.domain = c.domain ∧
      (∀ m, c.maxAge = some m → m ≠ 0 → o.maxAge = some (m * 1000)) ∧
      (c.maxAge = none → o.maxAge = none) := by
  have hcook : (createResponseMiddleware false false now op parse (.resp r)).cookies =
      cs.map relayCookie := by
    unfold createResponseMiddleware
    simp [hsc, hne, hparse]
  refine ⟨hcook, ?_⟩
  intro c hc
  refine ⟨(relayCookie c).2, ?_, rfl, rfl, rfl, rfl, rfl, rfl, rfl, ?_, ?_⟩
  · rw [hcook]
    exact List.mem_map_of_mem _ hc
  · intro m hm hmne
    simp [relayCookie, hm, hmne]
  · intro hm
    simp [relayCookie, hm]

theorem responseMiddleware_cookie_relay_witness :
    paramsGet w8Resp.headers "set-cookie" =
      some "_rt=token2; path=/; max-age=3600; secure" ∧
    w8Cookie.sameSite = some "strict" ∧ w8Cookie.httpOnly = some false ∧
    (∃ o, ("_rt", o) ∈ (createResponseMiddleware false false 0 none
        (fun _ => [w8Cookie]) (.resp w8Resp)).cookies ∧
      o.maxAge = some 3600000 ∧ o.sameSite = "lax" ∧ o.httpOnly = true ∧
      o.secure = some true ∧ o.domain = some "example.com") := by
  refine ⟨rfl, rfl, rfl, ?_⟩
  obtain ⟨o, hmem, hss, hho, _, _, _, hsec, hdom, hma, _⟩ :=
    (responseMiddleware_cookie_relay 0 none (fun _ => [w8Cookie]) w8Resp
      "_rt=token2; path=/; max-age=3600; secure" [w8Cookie] rfl (by decide) rfl).2
      w8Cookie (by simp)
  exact ⟨o, hmem, hma 3600 rfl (by decide), hss, hho, hsec, hdom⟩

/-- C9: If an upstream cookie parses with max-age 0 — falsy in JavaScript —
the cookie relayed by createResponseMiddleware carries no maxAge option at
all rather than 0 milliseconds: the seconds-to-milliseconds conversion is
applied exactly when the parsed max-age value is truthy (present and
nonzero). -/
theorem responseMiddleware_maxAge_zero (now : Int) (op : Option String)
    (parse : String → List ParsedCookie) (r : MWResp) (sc : String)
    (cs : List ParsedCookie)
    (hsc : paramsGet r.headers "set-cookie" = some sc) (hne : sc ≠ "")
    (hparse : parse sc = cs) (c : ParsedCookie) (hc : c ∈ cs) :
    ((c.name, (relayCookie c).2) ∈
      (createResponseMiddleware false false now op parse (.resp r)).cookies) ∧
    (c.maxAge = some 0 → (relayCookie c).2.maxAge = none) ∧
    (∀ v, (relayCookie c).2.maxAge = some v ↔
      ∃ m, c.maxAge = some m ∧ m ≠ 0 ∧ v = m * 1000) := by
  refine ⟨?_, ?_, ?_⟩
  · have hcook : (createResponseMiddleware false false now op parse (.resp r)).cookies =
        cs.map relayCookie := by
      unfold createResponseMiddleware
      simp [hsc, hne, hparse]
    rw [hcook]
    exact List.mem_map_of_mem _ hc
  · intro hm
    simp [relayCookie, hm]
  · intro v
    constructor
    · intro hv
      cases hm : c.maxAge with
      | none => simp [relayCookie, hm] at hv
      | some m =>
        by_cases h0 : m = 0
        · subst h0
          simp [relayCookie, hm] at hv
        · refine ⟨m, rfl, h0, ?_⟩
          simp [relayCookie, hm, h0] at hv
          omega
    · rintro ⟨m, hm, h0, rfl⟩
      simp [relayCookie, hm, h0]

theorem responseMiddleware_maxAge_zero_witness :
    w9Cookie.maxAge = some 0 ∧
    (("_at", (relayCookie w9Cookie).2) ∈
      (createResponseMiddleware false false 0 none (fun _ => [w9Cookie])
        (.resp w9Resp)).cookies) ∧
    (relayCookie w9Cookie).2.maxAge = none := by
  have h := responseMiddleware_maxAge_zero 0 none (fun _ => [w9Cookie]) w9Resp
    "_at=gone; Max-Age=0" [w9Cookie] rfl (by decide) rfl w9Cookie (by simp)
  exact ⟨rfl, h.1, h.2.1 rfl⟩

end RemixBase
